import Mathlib

/-!
Verification development for the whatsfind repository.

The transcript parser (`parser.py`), the storage/search layer (`db.py`) and
the import loop (`app.py`) are shallowly embedded as executable Lean
functions over `List Char` strings, `Int` epochs and explicit list-valued
tables.  SQL `ORDER BY` is modelled as a stable insertion sort over the
table's row order, `LIMIT`/`OFFSET` as `take`/`drop`, and Python's
`time.mktime` as the written calendar instant shifted by the process-local
UTC offset (a parameter `tz`, in seconds east of UTC).
-/

namespace WhatsFind

/-! ## Character and string utilities (Python semantics) -/

/-- Python whitespace class used by `str.strip` and by the regex class `\s`. -/
def pyIsSpace (c : Char) : Bool :=
  c = ' ' || c = '\t' || c = '\n' || c = '\r' || c = '\x0b' || c = '\x0c'

/-- Python `str.strip()` with no arguments: strip whitespace on both ends. -/
def pyStrip (cs : List Char) : List Char :=
  ((cs.dropWhile pyIsSpace).reverse.dropWhile pyIsSpace).reverse

/-- Python `raw.rstrip("\n")`: drop every trailing newline character. -/
def rstripNl (cs : List Char) : List Char :=
  (cs.reverse.dropWhile (· = '\n')).reverse

/-- Python substring test `pat in hay`. -/
def inStr (pat : List Char) : List Char → Bool
  | [] => pat.isEmpty
  | c :: rest => if pat.isPrefixOf (c :: rest) then true else inStr pat rest

/-- Lower-casing a whole string, Python `str.lower()` on ASCII text. -/
def lowerStr (cs : List Char) : List Char := cs.map Char.toLower

/-- Case-insensitive equality of single characters. -/
def eqCI (a b : Char) : Bool := a.toLower = b.toLower

/-- Python `int(s)` restricted to the shapes that can reach the date parser:
optional surrounding whitespace, an optional `+` sign, then decimal digits. -/
def pyNat? (cs : List Char) : Option Nat :=
  let s := pyStrip cs
  let s := match s with
    | '+' :: rest => rest
    | _ => s
  if s.isEmpty then none
  else if s.all Char.isDigit then
    some (s.foldl (fun n c => n * 10 + (c.toNat - '0'.toNat)) 0)
  else none

/-- Longest leading run of decimal digits, returned with the remainder. -/
def takeDigitRun (cs : List Char) : List Char × List Char :=
  (cs.takeWhile Char.isDigit, cs.dropWhile Char.isDigit)

/-! ## HEADER_RE, the header-shape regular expression

`^\[(\d{1,2}[/|-]\d{1,2}[/|-]\d{2,4}),\s+(\d{1,2}:\d{2}(?:\s?[AP]M)?)\]\s*(.*)$`
alternated with the dashed form
`^(\d{1,2}[/|-]\d{1,2}[/|-]\d{2,4}),\s+(\d{1,2}:\d{2}(?:\s?[AP]M)?)\s*[-–]\s*(.*)$`,
compiled with `re.IGNORECASE` and applied with `re.match` (anchored at the
start).  Because every bounded digit group is followed by a non-digit
literal, the greedy matching below is equivalent to the backtracking
semantics of the Python engine on these patterns. -/

/-- Match `\d{1,2}[/|-]\d{1,2}[/|-]\d{2,4}`; returns the matched date text and
the remainder. -/
def matchDate (cs : List Char) : Option (List Char × List Char) :=
  let (d1, r1) := takeDigitRun cs
  if d1.length = 0 || 2 < d1.length then none else
  match r1 with
  | s1 :: r2 =>
    if s1 = '/' || s1 = '-' then
      let (d2, r3) := takeDigitRun r2
      if d2.length = 0 || 2 < d2.length then none else
      match r3 with
      | s2 :: r4 =>
        if s2 = '/' || s2 = '-' then
          let (d3, r5) := takeDigitRun r4
          if d3.length < 2 || 4 < d3.length then none
          else some (d1 ++ s1 :: d2 ++ s2 :: d3, r5)
        else none
      | [] => none
    else none
  | [] => none

/-- Match `\d{1,2}:\d{2}(?:\s?[AP]M)?` (case-insensitive); returns the
matched time text and the remainder. -/
def matchTime (cs : List Char) : Option (List Char × List Char) :=
  let (h, r1) := takeDigitRun cs
  if h.length = 0 || 2 < h.length then none else
  match r1 with
  | ':' :: m1 :: m2 :: r2 =>
    if m1.isDigit && m2.isDigit then
      -- optional `\s?[AP]M`
      match r2 with
      | w :: a :: m :: r3 =>
        if pyIsSpace w && (eqCI a 'A' || eqCI a 'P') && eqCI m 'M' then
          some (h ++ ':' :: m1 :: m2 :: w :: a :: [m], r3)
        else if (eqCI w 'A' || eqCI w 'P') && eqCI a 'M' then
          some (h ++ ':' :: m1 :: m2 :: w :: [a], m :: r3)
        else some (h ++ ':' :: m1 :: [m2], r2)
      | [a, m] =>
        if (eqCI a 'A' || eqCI a 'P') && eqCI m 'M' then
          some (h ++ ':' :: m1 :: m2 :: a :: [m], [])
        else some (h ++ ':' :: m1 :: [m2], [a, m])
      | r2 => some (h ++ ':' :: m1 :: [m2], r2)
    else none
  | _ => none

/-- The bracketed alternative of `HEADER_RE`. -/
def matchBracket (cs : List Char) : Option (List Char × List Char × List Char) :=
  match cs with
  | '[' :: r1 =>
    match matchDate r1 with
    | some (d, r2) =>
      match r2 with
      | ',' :: r3 =>
        let ws := r3.takeWhile pyIsSpace
        if ws.isEmpty then none else
        match matchTime (r3.dropWhile pyIsSpace) with
        | some (t, r4) =>
          match r4 with
          | ']' :: r5 => some (d, t, r5.dropWhile pyIsSpace)
          | _ => none
        | none => none
      | _ => none
    | none => none
  | _ => none

/-- The dashed alternative of `HEADER_RE`; the separator class accepts the
ASCII hyphen and the en dash. -/
def matchDash (cs : List Char) : Option (List Char × List Char × List Char) :=
  match matchDate cs with
  | some (d, r2) =>
    match r2 with
    | ',' :: r3 =>
      let ws := r3.takeWhile pyIsSpace
      if ws.isEmpty then none else
      match matchTime (r3.dropWhile pyIsSpace) with
      | some (t, r4) =>
        match r4.dropWhile pyIsSpace with
        | sep :: r5 =>
          if sep = '-' || sep = '–' then some (d, t, r5.dropWhile pyIsSpace)
          else none
        | [] => none
      | none => none
    | _ => none
  | none => none

/-- `HEADER_RE.match`: the bracketed alternative first, then the dashed one.
Returns `(date text, time text, rest)`. -/
def matchHeader (cs : List Char) : Option (List Char × List Char × List Char) :=
  match matchBracket cs with
  | some r => some r
  | none => matchDash cs

/-! ## parse_whatsapp_date -/

/-- A naive calendar date-time, the result of Python's
`datetime(year, month, day, hour, minute)`. -/
structure DT where
  year : Nat
  month : Nat
  day : Nat
  hour : Nat
  minute : Nat
deriving DecidableEq, Repr

def isLeapYear (y : Nat) : Bool :=
  (y % 4 = 0 && y % 100 ≠ 0) || y % 400 = 0

def daysInMonth (y m : Nat) : Nat :=
  match m with
  | 1 => 31 | 2 => if isLeapYear y then 29 else 28 | 3 => 31
  | 4 => 30 | 5 => 31 | 6 => 30 | 7 => 31 | 8 => 31
  | 9 => 30 | 10 => 31 | 11 => 30 | 12 => 31
  | _ => 0

/-- `re.split(r'[/|-]', s)`: split on every `/` or `-`. -/
def splitDateSeps (cs : List Char) : List (List Char) :=
  match cs with
  | [] => [[]]
  | c :: rest =>
    if c = '/' || c = '-' then [] :: splitDateSeps rest
    else
      match splitDateSeps rest with
      | [] => [[c]]
      | p :: ps => (c :: p) :: ps

/-- The inner time regex of `parse_whatsapp_date`:
`re.match(r'(\d{1,2}):(\d{2})(?:\s*([AaPp][Mm]))?', time_str)`.
Returns `(hour digits value, minute digits value, am-pm letter?)`. -/
def matchTimePy (cs : List Char) : Option (Nat × Nat × Option Char) :=
  let (h, r1) := takeDigitRun cs
  if h.length = 0 || 2 < h.length then none else
  match r1 with
  | ':' :: m1 :: m2 :: r2 =>
    if m1.isDigit && m2.isDigit then
      let hv := h.foldl (fun n c => n * 10 + (c.toNat - '0'.toNat)) 0
      let mv := (m1.toNat - '0'.toNat) * 10 + (m2.toNat - '0'.toNat)
      match r2.dropWhile pyIsSpace with
      | a :: m :: _ =>
        if (eqCI a 'A' || eqCI a 'P') && eqCI m 'M' then some (hv, mv, some a)
        else some (hv, mv, none)
      | _ => some (hv, mv, none)
    else none
  | _ => none

/-- `parse_whatsapp_date(date_str, time_str)` from `parser.py`: day/month/year
disambiguation, range validation, AM/PM conversion, and the `datetime`
constructor's day-of-month validation (a `ValueError` is caught and turned
into `None`). -/
def parseWhatsappDate (dateStr timeStr : List Char) : Option DT :=
  let dateStr := pyStrip dateStr
  let timeStr := pyStrip timeStr
  let parts := splitDateSeps dateStr
  match parts with
  | [s1, s2, s3] =>
    match pyNat? s1, pyNat? s2, pyNat? s3 with
    | some p1, some p2, some p3 =>
      let (year, month, day) :=
        if 31 < p3 then
          if 12 < p1 then (p3, p2, p1)
          else if 12 < p2 then (p3, p1, p2)
          else (p3, p2, p1)
        else if 31 < p1 then
          if 12 < p2 then (p1, p3, p2)
          else (p1, p2, p3)
        else
          let y := if p3 < 50 then 2000 + p3 else 1900 + p3
          if 12 < p1 then (y, p2, p1)
          else if 12 < p2 then (y, p1, p2)
          else (y, p2, p1)
      if 1 ≤ month && month ≤ 12 && 1 ≤ day && day ≤ 31
          && 1900 ≤ year && year ≤ 2100 then
        match matchTimePy timeStr with
        | some (h0, minute, ampm) =>
          let hour :=
            match ampm with
            | some a =>
              if eqCI a 'P' && h0 ≠ 12 then h0 + 12
              else if eqCI a 'A' && h0 = 12 then 0
              else h0
            | none => h0
          if hour ≤ 23 && minute ≤ 59 then
            if day ≤ daysInMonth year month then
              some ⟨year, month, day, hour, minute⟩
            else none
          else none
        | none => none
      else none
    | _, _, _ => none
  | _ => none

/-! ## Epoch computation and `time.mktime` -/

/-- Cumulative day count before month `m` (1-based) in a non-leap year. -/
def daysBeforeMonth (m : Nat) : Nat :=
  match m with
  | 1 => 0 | 2 => 31 | 3 => 59 | 4 => 90 | 5 => 120 | 6 => 151
  | 7 => 181 | 8 => 212 | 9 => 243 | 10 => 273 | 11 => 304 | 12 => 334
  | _ => 365

/-- Days from 0001-01-01 (day 0) to the given proleptic-Gregorian date. -/
def civilDays (y m d : Nat) : Nat :=
  365 * (y - 1) + ((y - 1) / 4 + (y - 1) / 400) - (y - 1) / 100
    + daysBeforeMonth m + (if isLeapYear y && 2 < m then 1 else 0) + (d - 1)

/-- Seconds since the UTC epoch of a calendar date-time read as UTC. -/
def epochSecs (dt : DT) : Int :=
  ((civilDays dt.year dt.month dt.day : Int) - (civilDays 1970 1 1 : Int)) * 86400
    + dt.hour * 3600 + dt.minute * 60

/-- `int(time.mktime(dt.timetuple()) * 1000)`: `mktime` reads the naive
calendar tuple in the process-local timezone, `tz` seconds east of UTC, so
the produced epoch is the UTC reading shifted by `-tz`. -/
def mktimeMs (tz : Int) (dt : DT) : Int :=
  (epochSecs dt - tz) * 1000

/-! ## _parse_header -/

/-- First occurrence split on the literal `": "`:
`rest.split(": ", 1)` guarded by `": " in rest`. -/
def splitColonSpace : List Char → Option (List Char × List Char)
  | ':' :: ' ' :: rest => some ([], rest)
  | c :: rest =>
    match splitColonSpace rest with
    | some (a, b) => some (c :: a, b)
    | none => none
  | [] => none

/-- `_parse_header(line)`: returns `(epoch ms, sender?, text)` or `none` when
the line is not a header.  `tz` is the process-local UTC offset consumed by
`time.mktime`. -/
def parseHeaderLine (tz : Int) (line : List Char) :
    Option (Int × Option (List Char) × List Char) :=
  match matchHeader (pyStrip line) with
  | none => none
  | some (dateStr, timeStr, rest) =>
    let (sender, text) :=
      match splitColonSpace rest with
      | some (pre, post) => (some pre, post)
      | none => (none, rest)
    match parseWhatsappDate dateStr timeStr with
    | none => none
    | some dt => some (mktimeMs tz dt, sender, text)

/-! ## MEDIA_PATTERNS and MEDIA_REGEX

The ten alternatives of `MEDIA_REGEX`, compiled with `re.IGNORECASE` and
applied with `.search` (leftmost match; at one position the alternatives are
tried in list order).  `\w` is the word-character class. -/

def isWordChar (c : Char) : Bool :=
  c.isAlpha || c.isDigit || c = '_'

/-- Consume a case-insensitive literal. -/
def matchLitCI : List Char → List Char → Option (List Char × List Char)
  | [], cs => some ([], cs)
  | _ :: _, [] => none
  | p :: ps, c :: cs =>
    if eqCI p c then
      match matchLitCI ps cs with
      | some (m, r) => some (c :: m, r)
      | none => none
    else none

/-- Consume exactly `n` decimal digits. -/
def matchDigits : Nat → List Char → Option (List Char × List Char)
  | 0, cs => some ([], cs)
  | _ + 1, [] => none
  | n + 1, c :: cs =>
    if c.isDigit then
      match matchDigits n cs with
      | some (m, r) => some (c :: m, r)
      | none => none
    else none

/-- Sequence two partial matchers, concatenating their matched text. -/
def andThen (f g : List Char → Option (List Char × List Char))
    (cs : List Char) : Option (List Char × List Char) :=
  match f cs with
  | some (m1, r1) =>
    match g r1 with
    | some (m2, r2) => some (m1 ++ m2, r2)
    | none => none
  | none => none

/-- `XXX-\d{8}-WA\d{4}` followed by a literal extension, e.g.
`IMG-\d{8}-WA\d{4}\.jpg`. -/
def matchWaFile (tag ext : List Char) : List Char → Option (List Char × List Char) :=
  andThen (matchLitCI tag)
    (andThen (matchDigits 8)
      (andThen (matchLitCI "-WA".data)
        (andThen (matchDigits 4) (matchLitCI ext))))

/-- `DOC-\d{8}-WA\d{4}\.?[\w]*`: optional dot, then a greedy word-char run. -/
def matchDocFile : List Char → Option (List Char × List Char) :=
  andThen (matchLitCI "DOC-".data)
    (andThen (matchDigits 8)
      (andThen (matchLitCI "-WA".data)
        (andThen (matchDigits 4)
          (fun cs =>
            let (dot, r1) :=
              match cs with
              | '.' :: rest => (['.'], rest)
              | _ => ([], cs)
            some (dot ++ r1.takeWhile isWordChar, r1.dropWhile isWordChar)))))

/-- `\w+\.ext` optionally followed by `x` when `optX` is set (the generic
document alternatives `\w+\.pdf`, `\w+\.docx?`, `\w+\.xlsx?`, `\w+\.pptx?`).
The word run is maximal: `\w` never matches the following dot, so the greedy
run is the regex's behaviour. -/
def matchWordExt (ext : List Char) (optX : Bool)
    (cs : List Char) : Option (List Char × List Char) :=
  let w := cs.takeWhile isWordChar
  let r1 := cs.dropWhile isWordChar
  if w.isEmpty then none else
  match matchLitCI ('.' :: ext) r1 with
  | some (m, r2) =>
    if optX then
      match r2 with
      | x :: r3 => if eqCI x 'x' then some (w ++ m ++ [x], r3) else some (w ++ m, r2)
      | [] => some (w ++ m, r2)
    else some (w ++ m, r2)
  | none => none

/-- The ordered alternatives of `MEDIA_PATTERNS`. -/
def mediaAlternatives : List (List Char → Option (List Char × List Char)) :=
  [ matchWaFile "IMG-".data ".jpg".data
  , matchWaFile "PTT-".data ".opus".data
  , matchWaFile "VID-".data ".mp4".data
  , matchWaFile "AUD-".data ".opus".data
  , matchDocFile
  , matchWaFile "STK-".data ".webp".data
  , matchWordExt "pdf".data false
  , matchWordExt "doc".data true
  , matchWordExt "xls".data true
  , matchWordExt "ppt".data true ]

/-- Try every alternative at one position, in pattern order. -/
def mediaMatchAt (cs : List Char) : Option (List Char) :=
  mediaAlternatives.foldl
    (fun acc f =>
      match acc with
      | some m => some m
      | none => (f cs).map (·.1))
    none

/-- `MEDIA_REGEX.search(text).group()`: the leftmost match, scanning
positions left to right. -/
def mediaSearch : List Char → Option (List Char)
  | [] => mediaMatchAt []
  | c :: rest =>
    match mediaMatchAt (c :: rest) with
    | some m => some m
    | none => mediaSearch rest

/-! ## iter_messages_from_text, the message reassembler -/

/-- The tuple `(ts_ms, sender, text, type, has_media, media_path)` held as
the pending message and yielded to the caller. -/
structure PMsg where
  tsMs : Int
  sender : Option (List Char)
  text : List Char
  msgType : String
  hasMedia : Nat
  mediaPath : Option (List Char)
deriving DecidableEq, Repr

/-- Python truthiness of an optional string (`None` and `""` are falsy). -/
def optTruthy : Option (List Char) → Bool
  | none => false
  | some s => !s.isEmpty

/-- The explicit placeholder test of the header branch:
`"<Media omitted>" in text or "image omitted" in text.lower()`. -/
def placeholderHit (text : List Char) : Bool :=
  inStr "<Media omitted>".data text || inStr "image omitted".data (lowerStr text)

/-- The header branch of `iter_messages_from_text`: build the new pending
message from a parsed header. -/
def startMessage (avail : List (List Char)) (ts : Int)
    (sender : Option (List Char)) (text : List Char) : PMsg :=
  let msgType := if optTruthy sender then "message" else "system"
  let hm0 : Nat := if placeholderHit text then 1 else 0
  match mediaSearch text with
  | some f =>
    if f ∈ avail then ⟨ts, sender, text, msgType, 1, some f⟩
    else ⟨ts, sender, text, msgType, hm0, none⟩
  | none => ⟨ts, sender, text, msgType, hm0, none⟩

/-- The continuation branch: extend the pending message's text and re-check
media only while `media_path` is still falsy. -/
def contLine (avail : List (List Char)) (cur : PMsg) (line : List Char) : PMsg :=
  let text := if cur.text.isEmpty then line else cur.text ++ '\n' :: line
  if optTruthy cur.mediaPath then { cur with text := text }
  else
    match mediaSearch text with
    | some f =>
      if f ∈ avail then { cur with text := text, hasMedia := 1, mediaPath := some f }
      else { cur with text := text }
    | none => { cur with text := text }

/-- One loop iteration of `iter_messages_from_text`: returns the new pending
message and the message emitted by this iteration, if any. -/
def stepLine (tz : Int) (avail : List (List Char)) (cur : Option PMsg)
    (raw : List Char) : Option PMsg × Option PMsg :=
  let line := rstripNl raw
  match parseHeaderLine tz line with
  | some (ts, sender, text) => (some (startMessage avail ts sender text), cur)
  | none =>
    match cur with
    | some c => (some (contLine avail c line), none)
    | none => (none, none)

/-- The loop of `iter_messages_from_text`, with the final flush of the
pending message. -/
def runAux (tz : Int) (avail : List (List Char)) :
    List (List Char) → Option PMsg → List PMsg
  | [], cur => cur.toList
  | raw :: rest, cur =>
    let st := stepLine tz avail cur raw
    st.2.toList ++ runAux tz avail rest st.1

/-- `iter_messages_from_text(fp, available_media)` on the file's lines. -/
def runReassembler (tz : Int) (avail : List (List Char))
    (lines : List (List Char)) : List PMsg :=
  runAux tz avail lines none

/-! ## db.py: the messages table, search and get_thread

A table is a list of rows in id order (`id INTEGER PRIMARY KEY`: insertion
order is id order).  `ORDER BY` on a single key is modelled as a stable
insertion sort over that row order; `LIMIT`/`OFFSET` as `take`/`drop`. -/

structure Row where
  id : Nat
  chatId : Nat
  ts : Int
  sender : Option String
  text : String
  hasMedia : Nat
deriving DecidableEq, Repr

/-- Insert into a `ts`-descending list, after every row with `ts` at least
as large (stable for equal timestamps). -/
def insertTsDesc (x : Row) : List Row → List Row
  | [] => [x]
  | h :: t => if x.ts ≤ h.ts then h :: insertTsDesc x t else x :: h :: t

/-- Stable sort by `ts` descending (`ORDER BY ts DESC`). -/
def sortByTsDesc (l : List Row) : List Row :=
  l.foldl (fun acc x => insertTsDesc x acc) []

/-- Insert into a `ts`-ascending list, after every row with `ts` at most as
large (stable for equal timestamps). -/
def insertTsAsc (x : Row) : List Row → List Row
  | [] => [x]
  | h :: t => if h.ts ≤ x.ts then h :: insertTsAsc x t else x :: h :: t

/-- Stable sort by `ts` ascending (`ORDER BY ts ASC`). -/
def sortByTsAsc (l : List Row) : List Row :=
  l.foldl (fun acc x => insertTsAsc x acc) []

/-- The optional filters of `db.search`, added to the query under Python
truthiness for `chat_id` and `sender`, `is not None` for the time range and
the media flag. -/
def searchCond (matchQ : Row → Bool) (chatId : Option Nat)
    (sender : Option String) (t1 t2 : Option Int) (hasMedia : Option Bool)
    (r : Row) : Bool :=
  matchQ r
    && (match chatId with
        | some c => if c = 0 then true else decide (r.chatId = c)
        | none => true)
    && (match sender with
        | some s => if s = "" then true else decide (r.sender = some s)
        | none => true)
    && (match t1, t2 with
        | some a, some b => decide (a ≤ r.ts) && decide (r.ts ≤ b)
        | _, _ => true)
    && (match hasMedia with
        | some b => decide (r.hasMedia = if b then 1 else 0)
        | none => true)

/-- `db.search`: full-text match (abstracted as the predicate `matchQ`)
joined with the optional filters, `ORDER BY m.ts DESC`, then
`LIMIT :limit OFFSET :offset`. -/
def searchModel (rows : List Row) (matchQ : Row → Bool) (chatId : Option Nat)
    (sender : Option String) (t1 t2 : Option Int) (hasMedia : Option Bool)
    (limit offset : Nat) : List Row :=
  (((sortByTsDesc (rows.filter
      (searchCond matchQ chatId sender t1 t2 hasMedia))).drop offset).take limit)

/-- `db.get_thread`: the centre row by id, rows of the same chat with
`ts <= centre.ts` ordered descending and limited, rows with `ts > centre.ts`
ordered ascending and limited, assembled as
`reversed(before) + [row] + after`. -/
def getThread (rows : List Row) (messageId : Nat) (context : Nat) :
    List Row × Option Row :=
  match rows.find? (fun r => decide (r.id = messageId)) with
  | none => ([], none)
  | some row =>
    let before := (sortByTsDesc (rows.filter
      (fun r => decide (r.chatId = row.chatId) && decide (r.ts ≤ row.ts)))).take context
    let after := (sortByTsAsc (rows.filter
      (fun r => decide (r.chatId = row.chatId) && decide (row.ts < r.ts)))).take context
    (before.reverse ++ row :: after, some row)

/-! ## app.py import loop and parser.py import_zip_to_rows

The store is modelled as the association of chat titles to their message
lists, in chat-id order; `upsert_chat` returns the first chat with the given
title, so `appendChatMsgs` extends only the first matching entry. -/

abbrev ChatStore := List (List Char × List PMsg)

/-- `SELECT id FROM chats WHERE title = ?` followed, for that id, by the
chat's message list. -/
def findChatMsgs (s : ChatStore) (t : List Char) : Option (List PMsg) :=
  (s.find? (fun p => decide (p.1 = t))).map (·.2)

/-- `db.upsert_chat`: reuse the first chat with this title, else create an
empty one. -/
def upsertChatTitle (s : ChatStore) (t : List Char) : ChatStore :=
  if (s.find? (fun p => decide (p.1 = t))).isSome then s else s ++ [(t, [])]

/-- `db.check_chat_has_messages`. -/
def chatHasMessages (s : ChatStore) (t : List Char) : Bool :=
  match findChatMsgs s t with
  | some l => !l.isEmpty
  | none => false

/-- `db.bulk_insert_messages` for the chat found by `upsert_chat`: extend
the first entry with this title. -/
def appendChatMsgs : ChatStore → List Char → List PMsg → ChatStore
  | [], _, _ => []
  | p :: rest, t, ms =>
    if p.1 = t then (p.1, p.2 ++ ms) :: rest
    else p :: appendChatMsgs rest t ms

/-- One iteration of the import loop of `app.py` under the
"Skip duplicates" mode: upsert the chat, skip it when it already has
messages, otherwise insert the parsed batch. -/
def importChatSkip (s : ChatStore) (t : List Char) (ms : List PMsg) : ChatStore :=
  let s1 := upsertChatTitle s t
  if chatHasMessages s1 t then s1 else appendChatMsgs s1 t ms

/-- The whole import loop over the `(title, messages)` pairs of one
archive, in archive order. -/
def importArchiveSkip (s : ChatStore) (a : List (List Char × List PMsg)) : ChatStore :=
  a.foldl (fun s p => importChatSkip s p.1 p.2) s

/-- One archive entry: its full name inside the ZIP and, for transcripts,
its decoded lines. -/
structure ZEntry where
  name : List Char
  lines : List (List Char)
deriving DecidableEq, Repr

/-- `name.lower().endswith(".txt")`. -/
def txtEntry (e : ZEntry) : Bool :=
  ".txt".data.isSuffixOf (lowerStr e.name)

/-- `os.path.basename`: the part after the last `/`. -/
def basenameOf (cs : List Char) : List Char :=
  cs.foldl (fun acc c => if c = '/' then [] else acc ++ [c]) []

/-- `os.path.splitext(...)[0]`: cut at the last dot, unless every character
before that dot is itself a dot. -/
def titleOf (cs : List Char) : List Char :=
  let b := basenameOf cs
  match b.reverse.dropWhile (· ≠ '.') with
  | [] => b
  | _ :: stem =>
    if stem.reverse.all (· = '.') then b else stem.reverse

/-- The "available media" set: base names of every non-transcript entry. -/
def availableMediaOf (entries : List ZEntry) : List (List Char) :=
  (entries.filter (fun e => !txtEntry e)).map (fun e => basenameOf e.name)

/-- `parser.import_zip_to_rows`: one `(title, parsed messages)` pair per
transcript entry; an archive without transcripts yields nothing and raises
nothing. -/
def importZipToRows (tz : Int) (entries : List ZEntry) :
    List (List Char × List PMsg) :=
  (entries.filter txtEntry).map
    (fun e => (titleOf e.name, runReassembler tz (availableMediaOf entries) e.lines))

/-! ## Concrete fixtures -/

/-- One chat of five messages with distinct, increasing timestamps. -/
def c1Table : List Row :=
  [⟨1, 1, 10, none, "a", 0⟩, ⟨2, 1, 20, none, "b", 0⟩, ⟨3, 1, 30, none, "c", 0⟩,
   ⟨4, 1, 40, none, "d", 0⟩, ⟨5, 1, 50, none, "e", 0⟩]

/-- Two messages of one chat sharing a timestamp. -/
def c3Table : List Row :=
  [⟨1, 1, 5, none, "x", 0⟩, ⟨2, 1, 5, none, "y", 0⟩]

/-! ## Helper lemmas -/

theorem contLine_text (avail : List (List Char)) (cur : PMsg) (l : List Char) :
    (contLine avail cur l).text
      = if cur.text.isEmpty then l else cur.text ++ '\n' :: l := by
  simp only [contLine]
  split
  · rfl
  · split
    · split <;> rfl
    · rfl

theorem contLine_sender (avail : List (List Char)) (cur : PMsg) (l : List Char) :
    (contLine avail cur l).sender = cur.sender := by
  simp only [contLine]
  split
  · rfl
  · split
    · split <;> rfl
    · rfl

theorem contLine_msgType (avail : List (List Char)) (cur : PMsg) (l : List Char) :
    (contLine avail cur l).msgType = cur.msgType := by
  simp only [contLine]
  split
  · rfl
  · split
    · split <;> rfl
    · rfl

theorem contLine_hasMedia_of_one (avail : List (List Char)) (cur : PMsg)
    (l : List Char) (h : cur.hasMedia = 1) :
    (contLine avail cur l).hasMedia = 1 := by
  simp only [contLine]
  split
  · exact h
  · split
    · split
      · rfl
      · exact h
    · exact h

theorem contLine_mediaPath_of_truthy (avail : List (List Char)) (cur : PMsg)
    (l : List Char) (h : optTruthy cur.mediaPath = true) :
    (contLine avail cur l).mediaPath = cur.mediaPath := by
  simp only [contLine, h, if_true]

theorem startMessage_sender (avail : List (List Char)) (ts : Int)
    (s : Option (List Char)) (t : List Char) :
    (startMessage avail ts s t).sender = s := by
  simp only [startMessage]
  split
  · split <;> rfl
  · rfl

theorem startMessage_text (avail : List (List Char)) (ts : Int)
    (s : Option (List Char)) (t : List Char) :
    (startMessage avail ts s t).text = t := by
  simp only [startMessage]
  split
  · split <;> rfl
  · rfl

theorem startMessage_msgType (avail : List (List Char)) (ts : Int)
    (s : Option (List Char)) (t : List Char) :
    (startMessage avail ts s t).msgType
      = if optTruthy s then "message" else "system" := by
  simp only [startMessage]
  split
  · split <;> rfl
  · rfl

theorem startMessage_hasMedia_of_placeholder (avail : List (List Char))
    (ts : Int) (s : Option (List Char)) (t : List Char)
    (h : placeholderHit t = true) :
    (startMessage avail ts s t).hasMedia = 1 := by
  simp only [startMessage, h, if_true]
  split
  · split <;> rfl
  · rfl

theorem startMessage_system_sender (avail : List (List Char)) (ts : Int)
    (s : Option (List Char)) (t : List Char)
    (h : (startMessage avail ts s t).msgType = "system") :
    s = none ∨ s = some [] := by
  rw [startMessage_msgType] at h
  by_cases hs : optTruthy s = true
  · rw [if_pos hs] at h
    exact absurd h (by decide)
  · cases s with
    | none => exact Or.inl rfl
    | some l =>
      cases l with
      | nil => exact Or.inr rfl
      | cons c cs => exact absurd (rfl : optTruthy (some (c :: cs)) = true) hs

theorem append_cons_ne_empty (l r : List Char) (c : Char) :
    (l ++ c :: r).isEmpty = false := by
  cases l <;> rfl

/-- All messages produced by the reassembler loop satisfy the
system-implies-falsy-sender property, provided the pending one does. -/
theorem runAux_system_sender (tz : Int) (avail : List (List Char)) :
    ∀ (lines : List (List Char)) (cur : Option PMsg),
      (∀ c, cur = some c → c.msgType = "system" → c.sender = none ∨ c.sender = some []) →
      ∀ m ∈ runAux tz avail lines cur,
        m.msgType = "system" → m.sender = none ∨ m.sender = some [] := by
  intro lines
  induction lines with
  | nil =>
    intro cur hcur m hm
    cases cur with
    | none => simp [runAux, Option.toList] at hm
    | some c =>
      simp [runAux, Option.toList] at hm
      exact hm ▸ hcur c rfl
  | cons raw rest ih =>
    intro cur hcur m hm
    simp only [runAux] at hm
    rcases List.mem_append.mp hm with hm1 | hm2
    · -- emitted by this step: only a header flushes, and it flushes `cur`
      cases hH : parseHeaderLine tz (rstripNl raw) with
      | some v =>
        rcases v with ⟨ts, s, t⟩
        simp only [stepLine, hH] at hm1
        cases cur with
        | none => simp [Option.toList] at hm1
        | some c =>
          simp [Option.toList] at hm1
          exact hm1 ▸ hcur c rfl
      | none =>
        cases cur with
        | none => simp [stepLine, hH, Option.toList] at hm1
        | some c => simp [stepLine, hH, Option.toList] at hm1
    · -- produced by the rest of the loop
      cases hH : parseHeaderLine tz (rstripNl raw) with
      | some v =>
        rcases v with ⟨ts, s, t⟩
        simp only [stepLine, hH] at hm2
        refine ih _ ?_ m hm2
        intro c hc
        cases hc
        intro hsys
        rw [startMessage_sender]
        exact startMessage_system_sender avail ts s t hsys
      | none =>
        cases cur with
        | none =>
          simp only [stepLine, hH] at hm2
          exact ih _ (by intro c hc; cases hc) m hm2
        | some c =>
          simp only [stepLine, hH] at hm2
          refine ih _ ?_ m hm2
          intro c' hc'
          cases hc'
          rw [contLine_msgType, contLine_sender]
          exact hcur c rfl

/-! ### Sorting lemmas for the search model -/

theorem mem_insertTsDesc (x y : Row) :
    ∀ l, y ∈ insertTsDesc x l ↔ y = x ∨ y ∈ l := by
  intro l
  induction l with
  | nil => simp [insertTsDesc]
  | cons h t ih =>
    unfold insertTsDesc
    split
    · simp only [List.mem_cons, ih]
      tauto
    · simp only [List.mem_cons]

theorem pairwise_insertTsDesc (x : Row) :
    ∀ l, l.Pairwise (fun a b => b.ts ≤ a.ts) →
      (insertTsDesc x l).Pairwise (fun a b => b.ts ≤ a.ts) := by
  intro l
  induction l with
  | nil => simp [insertTsDesc]
  | cons h t ih =>
    intro hp
    rcases List.pairwise_cons.mp hp with ⟨hh, ht⟩
    unfold insertTsDesc
    split
    · refine List.pairwise_cons.mpr ⟨?_, ih ht⟩
      intro y hy
      rcases (mem_insertTsDesc x y t).mp hy with rfl | hyt
      · assumption
      · exact hh y hyt
    · refine List.pairwise_cons.mpr ⟨?_, hp⟩
      intro y hy
      have hx : h.ts ≤ x.ts := le_of_not_le (by assumption)
      rcases List.mem_cons.mp hy with rfl | hyt
      · exact hx
      · exact le_trans (hh y hyt) hx

theorem pairwise_sortByTsDesc (l : List Row) :
    (sortByTsDesc l).Pairwise (fun a b => b.ts ≤ a.ts) := by
  have aux : ∀ (l acc : List Row), acc.Pairwise (fun a b => b.ts ≤ a.ts) →
      (List.foldl (fun acc x => insertTsDesc x acc) acc l).Pairwise
        (fun a b => b.ts ≤ a.ts) := by
    intro l
    induction l with
    | nil => intro acc h; exact h
    | cons x xs ih =>
      intro acc h
      exact ih _ (pairwise_insertTsDesc x acc h)
  exact aux l [] List.Pairwise.nil

theorem take_drop_pag {α : Type} :
    ∀ (off : Nat) (l : List α) (lim : Nat),
      (l.take (off + lim)).drop off = (l.drop off).take lim := by
  intro off
  induction off with
  | zero => intro l lim; simp
  | succ n ih =>
    intro l lim
    cases l with
    | nil => simp
    | cons x xs =>
      have : Nat.succ n + lim = Nat.succ (n + lim) := Nat.succ_add n lim
      rw [this]
      simpa using ih xs lim

/-! ### Store lemmas for the import model -/

theorem appendChatMsgs_nil_msgs (t : List Char) :
    ∀ s : ChatStore, appendChatMsgs s t [] = s := by
  intro s
  induction s with
  | nil => rfl
  | cons p rest ih =>
    cases p with
    | mk t' l =>
      unfold appendChatMsgs
      split
      · simp
      · rw [ih]

theorem findChatMsgs_cons (p : List Char × List PMsg) (rest : ChatStore)
    (u : List Char) :
    findChatMsgs (p :: rest) u
      = if p.1 = u then some p.2 else findChatMsgs rest u := by
  unfold findChatMsgs
  rw [List.find?]
  by_cases h : p.1 = u
  · simp [h]
  · simp [h]

theorem findChatMsgs_appendChatMsgs (t : List Char) (ms : List PMsg) :
    ∀ (s : ChatStore) (u : List Char),
      findChatMsgs (appendChatMsgs s t ms) u
        = if u = t then (findChatMsgs s t).map (· ++ ms)
          else findChatMsgs s u := by
  intro s
  induction s with
  | nil =>
    intro u
    by_cases h : u = t <;> simp [appendChatMsgs, findChatMsgs, h]
  | cons p rest ih =>
    intro u
    unfold appendChatMsgs
    by_cases hp : p.1 = t
    · by_cases hu : u = t
      · simp [findChatMsgs_cons, hp, hu]
      · have h1 : ¬ t = u := fun h => hu h.symm
        simp [findChatMsgs_cons, hp, hu, h1]
    · by_cases hu : u = t
      · have hpu : ¬ p.1 = u := by rw [hu]; exact hp
        simp [findChatMsgs_cons, hp, hu, hpu, ih]
      · simp [findChatMsgs_cons, hp, hu, ih]

theorem upsertChatTitle_found (s : ChatStore) (t : List Char)
    (h : (findChatMsgs s t).isSome) : upsertChatTitle s t = s := by
  unfold upsertChatTitle
  rw [if_pos]
  unfold findChatMsgs at h
  cases hf : s.find? (fun p => decide (p.1 = t)) with
  | none => rw [hf] at h; simp at h
  | some v => simp [hf]

theorem upsertChatTitle_missing (s : ChatStore) (t : List Char)
    (h : findChatMsgs s t = none) : upsertChatTitle s t = s ++ [(t, [])] := by
  unfold upsertChatTitle
  rw [if_neg]
  unfold findChatMsgs at h
  cases hf : s.find? (fun p => decide (p.1 = t)) with
  | none => simp [hf]
  | some v => rw [hf] at h; simp at h

theorem findChatMsgs_append_one (t u : List Char) :
    ∀ s : ChatStore,
      findChatMsgs (s ++ [(t, [])]) u
        = match findChatMsgs s u with
          | some l => some l
          | none => if t = u then some [] else none := by
  intro s
  induction s with
  | nil =>
    simp only [List.nil_append]
    rw [findChatMsgs_cons]
    rfl
  | cons p rest ih =>
    rw [List.cons_append, findChatMsgs_cons, findChatMsgs_cons]
    by_cases hp : p.1 = u
    · rw [if_pos hp, if_pos hp]
    · rw [if_neg hp, if_neg hp, ih]

theorem findChatMsgs_upsert_self (s : ChatStore) (t : List Char) :
    (findChatMsgs (upsertChatTitle s t) t).isSome := by
  cases h : findChatMsgs s t with
  | some l => rw [upsertChatTitle_found s t (by rw [h]; rfl), h]; rfl
  | none =>
    rw [upsertChatTitle_missing s t h, findChatMsgs_append_one, h]
    simp

theorem findChatMsgs_upsert_mono (s : ChatStore) (t u : List Char)
    (h : (findChatMsgs s u).isSome) :
    findChatMsgs (upsertChatTitle s t) u = findChatMsgs s u := by
  cases ht : findChatMsgs s t with
  | some l => rw [upsertChatTitle_found s t (by rw [ht]; rfl)]
  | none =>
    rw [upsertChatTitle_missing s t ht, findChatMsgs_append_one]
    cases hu : findChatMsgs s u with
    | some l => rfl
    | none => rw [hu] at h; simp at h

theorem chatHasMessages_upsert_mono (s : ChatStore) (t u : List Char)
    (h : chatHasMessages s u = true) :
    chatHasMessages (upsertChatTitle s t) u = true := by
  unfold chatHasMessages at *
  cases hu : findChatMsgs s u with
  | none => rw [hu] at h; simp at h
  | some l =>
    rw [findChatMsgs_upsert_mono s t u (by rw [hu]; rfl), hu]
    rw [hu] at h
    exact h

theorem chatHasMessages_some (s : ChatStore) (u : List Char) (l : List PMsg)
    (h : findChatMsgs s u = some l) : chatHasMessages s u = !l.isEmpty := by
  unfold chatHasMessages
  rw [h]

theorem chatHasMessages_none (s : ChatStore) (u : List Char)
    (h : findChatMsgs s u = none) : chatHasMessages s u = false := by
  unfold chatHasMessages
  rw [h]

theorem chatHasMessages_congr (s s' : ChatStore) (u u' : List Char)
    (h : findChatMsgs s u = findChatMsgs s' u') :
    chatHasMessages s u = chatHasMessages s' u' := by
  unfold chatHasMessages
  rw [h]

theorem importChatSkip_mono_some (s : ChatStore) (t u : List Char)
    (ms : List PMsg) (h : (findChatMsgs s u).isSome) :
    (findChatMsgs (importChatSkip s t ms) u).isSome := by
  simp only [importChatSkip]
  have h1 : (findChatMsgs (upsertChatTitle s t) u).isSome := by
    rw [findChatMsgs_upsert_mono s t u h]; exact h
  split
  · exact h1
  · rw [findChatMsgs_appendChatMsgs]
    by_cases hu : u = t
    · rw [if_pos hu]
      cases hT : findChatMsgs (upsertChatTitle s t) t with
      | none => rw [hu, hT] at h1; simp at h1
      | some l => rfl
    · rw [if_neg hu]; exact h1

theorem importChatSkip_mono_has (s : ChatStore) (t u : List Char)
    (ms : List PMsg) (h : chatHasMessages s u = true) :
    chatHasMessages (importChatSkip s t ms) u = true := by
  simp only [importChatSkip]
  have h1 : chatHasMessages (upsertChatTitle s t) u = true :=
    chatHasMessages_upsert_mono s t u h
  split
  · exact h1
  · by_cases hu : u = t
    · subst hu
      cases hT : findChatMsgs (upsertChatTitle s u) u with
      | none => rw [chatHasMessages_none _ _ hT] at h1; exact absurd h1 (by decide)
      | some l =>
        have e : findChatMsgs (appendChatMsgs (upsertChatTitle s u) u ms) u
            = some (l ++ ms) := by
          rw [findChatMsgs_appendChatMsgs, if_pos rfl, hT]
          rfl
        rw [chatHasMessages_some _ _ _ e]
        rw [chatHasMessages_some _ _ _ hT] at h1
        cases l with
        | nil => simp at h1
        | cons a l' => rfl
    · have e : findChatMsgs (appendChatMsgs (upsertChatTitle s t) t ms) u
          = findChatMsgs (upsertChatTitle s t) u := by
        rw [findChatMsgs_appendChatMsgs, if_neg hu]
      rw [chatHasMessages_congr _ _ _ _ e]
      exact h1

theorem importChatSkip_post (s : ChatStore) (t : List Char) (ms : List PMsg) :
    (findChatMsgs (importChatSkip s t ms) t).isSome
    ∧ (ms ≠ [] → chatHasMessages (importChatSkip s t ms) t = true) := by
  simp only [importChatSkip]
  have h1 := findChatMsgs_upsert_self s t
  split
  · exact ⟨h1, fun _ => by assumption⟩
  · cases hT : findChatMsgs (upsertChatTitle s t) t with
    | none => rw [hT] at h1; simp at h1
    | some l =>
      have e : findChatMsgs (appendChatMsgs (upsertChatTitle s t) t ms) t
          = some (l ++ ms) := by
        rw [findChatMsgs_appendChatMsgs, if_pos rfl, hT]
        rfl
      constructor
      · rw [e]; rfl
      · intro hms
        rw [chatHasMessages_some _ _ _ e]
        cases hl : l ++ ms with
        | nil => exact absurd (List.append_eq_nil.mp hl).2 hms
        | cons a l' => rfl

theorem importChatSkip_id (s : ChatStore) (t : List Char) (ms : List PMsg)
    (h1 : (findChatMsgs s t).isSome)
    (h2 : ms = [] ∨ chatHasMessages s t = true) :
    importChatSkip s t ms = s := by
  simp only [importChatSkip]
  rw [upsertChatTitle_found s t h1]
  rcases h2 with rfl | hhas
  · split
    · rfl
    · exact appendChatMsgs_nil_msgs t s
  · rw [if_pos hhas]

theorem importArchiveSkip_mono_some (u : List Char) :
    ∀ (a : List (List Char × List PMsg)) (s : ChatStore),
      (findChatMsgs s u).isSome →
      (findChatMsgs (importArchiveSkip s a) u).isSome := by
  intro a
  induction a with
  | nil => intro s h; exact h
  | cons p rest ih =>
    intro s h
    exact ih _ (importChatSkip_mono_some s p.1 u p.2 h)

theorem importArchiveSkip_mono_has (u : List Char) :
    ∀ (a : List (List Char × List PMsg)) (s : ChatStore),
      chatHasMessages s u = true →
      chatHasMessages (importArchiveSkip s a) u = true := by
  intro a
  induction a with
  | nil => intro s h; exact h
  | cons p rest ih =>
    intro s h
    exact ih _ (importChatSkip_mono_has s p.1 u p.2 h)

theorem importArchiveSkip_post :
    ∀ (a : List (List Char × List PMsg)) (s : ChatStore),
      ∀ p ∈ a, (findChatMsgs (importArchiveSkip s a) p.1).isSome
        ∧ (p.2 ≠ [] → chatHasMessages (importArchiveSkip s a) p.1 = true) := by
  intro a
  induction a with
  | nil => intro s p hp; simp at hp
  | cons q rest ih =>
    intro s p hp
    rcases List.mem_cons.mp hp with rfl | hp'
    · have hpost := importChatSkip_post s p.1 p.2
      constructor
      · exact importArchiveSkip_mono_some p.1 rest _ hpost.1
      · intro hms
        exact importArchiveSkip_mono_has p.1 rest _ (hpost.2 hms)
    · exact ih _ p hp'

theorem importArchiveSkip_id :
    ∀ (a : List (List Char × List PMsg)) (s : ChatStore),
      (∀ p ∈ a, (findChatMsgs s p.1).isSome
        ∧ (p.2 = [] ∨ chatHasMessages s p.1 = true)) →
      importArchiveSkip s a = s := by
  intro a
  induction a with
  | nil => intro s _; rfl
  | cons q rest ih =>
    intro s h
    have hq := h q (List.mem_cons_self q rest)
    have hstep : importChatSkip s q.1 q.2 = s :=
      importChatSkip_id s q.1 q.2 hq.1 hq.2
    show importArchiveSkip (importChatSkip s q.1 q.2) rest = s
    rw [hstep]
    exact ih s (fun p hp => h p (List.mem_cons_of_mem q hp))

/-! ## Claims -/

/-- C1.  `get_thread` is claimed to return the target exactly once with at
most `context` messages strictly before and after; on the spec's own example
(one message before the target, three after, `context = 2`) the claim
predicts 4 rows.  The code's before-query selects `ts <= target.ts`, which
re-selects the target row, so the thread is `[1, 2, 2, 3, 4]`: five rows
with the centre message duplicated.  The missing-id branch does return an
empty list. -/
theorem c1_getThread_duplicates_target :
    (getThread c1Table 2 2).1.map (·.id) = [1, 2, 2, 3, 4]
    ∧ ((getThread c1Table 2 2).1.map (·.id)).count 2 = 2
    ∧ (getThread c1Table 2 2).1.length = 5
    ∧ getThread c1Table 99 2 = ([], none) := by
  exact ⟨by decide, by decide, by decide, by decide⟩

/-- C2.  `_parse_header` on `[05/03/2023, 9:15 AM] Alice: hi` parses the
calendar instant 2023-03-05T09:15 (sender `Alice`, text `hi`), but converts
it with `time.mktime`, which reads the tuple in the process-local timezone
`tz`: with `tz = 0` the stored epoch is the UTC instant 1678007700000 ms,
while with `tz = +3600` (UTC+01:00) it is 1678004100000 ms — not the UTC
instant the claim and the schema comment `-- epoch ms UTC` require. -/
theorem c2_parseHeader_epoch_is_local_not_utc :
    parseHeaderLine 0 "[05/03/2023, 9:15 AM] Alice: hi".data
      = some (1678007700000, some "Alice".data, "hi".data)
    ∧ parseHeaderLine 3600 "[05/03/2023, 9:15 AM] Alice: hi".data
      = some (1678004100000, some "Alice".data, "hi".data)
    ∧ (1678004100000 : Int) ≠ 1678007700000 := by
  exact ⟨by decide, by decide, by decide⟩

/-- C3 counterexample.  Two matching rows share a timestamp; the query
orders by `ts DESC` only, so the rows come out in table order `[1, 2]`
(id ascending), not in the claimed id-descending order `[2, 1]`. -/
theorem c3_cx_no_id_tiebreak :
    (searchModel c3Table (fun _ => true) none none none none none 100 0).map (·.id)
      = [1, 2]
    ∧ ([1, 2] : List Nat) ≠ [2, 1] := by
  exact ⟨by decide, by decide⟩

/-- C4 counterexample.  A continuation line contributes `image omitted` to
the accumulated text, yet the emitted media flag is 0 (the placeholder scan
runs only on the header's own text); and a header whose text is
`<MEDIA OMITTED>` — equal to `<Media omitted>` up to case — also gets media
flag 0, because that phrase is matched case-sensitively. -/
theorem c4_cx_placeholder :
    (runReassembler 0 [] ["[05/03/2023, 9:15] Alice: hi".data, "image omitted".data]).map
        (fun m => (m.text, m.hasMedia)) = [("hi\nimage omitted".data, 0)]
    ∧ inStr "image omitted".data (lowerStr "hi\nimage omitted".data) = true
    ∧ (runReassembler 0 [] ["[05/03/2023, 9:15] Alice: <MEDIA OMITTED>".data]).map
        (fun m => (m.text, m.hasMedia)) = [("<MEDIA OMITTED>".data, 0)]
    ∧ lowerStr "<MEDIA OMITTED>".data = lowerStr "<Media omitted>".data := by
  exact ⟨by decide, by decide, by decide, by decide⟩

/-- C5 counterexample.  The text `img-20230101-wa0001.jpg` matches the media
pattern (the regex is case-insensitive) and the archive holds the
case-different file `IMG-20230101-WA0001.jpg`, but membership in the
available-media set is exact, so the media flag stays 0 and no path is
recorded — the claimed case-insensitive filename comparison does not
happen. -/
theorem c5_cx_case_sensitive_media :
    (runReassembler 0 ["IMG-20230101-WA0001.jpg".data]
        ["[05/03/2023, 9:15] Alice: img-20230101-wa0001.jpg".data]).map
        (fun m => (m.hasMedia, m.mediaPath)) = [(0, none)]
    ∧ mediaSearch "img-20230101-wa0001.jpg".data
        = some "img-20230101-wa0001.jpg".data
    ∧ lowerStr "img-20230101-wa0001.jpg".data
        = lowerStr "IMG-20230101-WA0001.jpg".data := by
  exact ⟨by decide, by decide, by decide⟩

/-- C7 counterexample.  An archive whose only entry is a media file has zero
transcript entries; `import_zip_to_rows` yields nothing and the import loop
completes silently on an unchanged store — no `ArchiveError`-typed failure
exists anywhere in the code. -/
theorem c7_cx_empty_archive_silent :
    importZipToRows 0 [⟨"IMG-20230101-WA0001.jpg".data, []⟩] = []
    ∧ importArchiveSkip [] (importZipToRows 0 [⟨"IMG-20230101-WA0001.jpg".data, []⟩]) = [] := by
  exact ⟨by decide, by decide⟩

/-- C9 counterexample.  A header with empty text (`[05/03/2023, 9:15]`)
followed by continuations `a`, `b` and a second header yields a first
message whose text is `a\nb`, not the claimed `H1-text ++ "\n" ++ a ++ "\n"
++ b = "\na\nb"`: when the pending text is empty, the continuation replaces
it without a leading newline. -/
theorem c9_cx_empty_header_text :
    (runReassembler 0 [] ["[05/03/2023, 9:15]".data, "a".data, "b".data,
        "[05/03/2023, 9:16] x".data]).map (·.text)
      = ["a\nb".data, "x".data]
    ∧ "a\nb".data ≠ "".data ++ '\n' :: "a".data ++ '\n' :: "b".data := by
  exact ⟨by decide, by decide⟩

/-- C10 counterexample.  On the header `[05/03/2023, 9:15 AM] : hello` the
rest begins with the colon-space separator, so the sender is the empty
string: the emitted record has kind `system` together with the non-null
sender `some ""`. -/
theorem c10_cx_empty_sender_system :
    (runReassembler 0 [] ["[05/03/2023, 9:15 AM] : hello".data]).map
        (fun m => (m.msgType, m.sender)) = [("system", some [])]
    ∧ some ([] : List Char) ≠ (none : Option (List Char)) := by
  exact ⟨by decide, by decide⟩

/-- C3 (amended).  Search results are ordered by timestamp descending; no id
tie-break is applied, so rows with equal timestamps keep the table's own
(id-ascending) order under the stable-sort semantics of the model; `limit`
and `offset` paginate over this one fixed order. -/
theorem c3_search_order_pagination
    (rows : List Row) (matchQ : Row → Bool) (chatId : Option Nat)
    (sender : Option String) (t1 t2 : Option Int) (hasMedia : Option Bool)
    (limit offset : Nat) :
    (searchModel rows matchQ chatId sender t1 t2 hasMedia limit offset).Pairwise
        (fun a b => b.ts ≤ a.ts)
    ∧ searchModel rows matchQ chatId sender t1 t2 hasMedia limit offset
        = (searchModel rows matchQ chatId sender t1 t2 hasMedia
            (offset + limit) 0).drop offset := by
  constructor
  · unfold searchModel
    have hs := pairwise_sortByTsDesc
      (rows.filter (searchCond matchQ chatId sender t1 t2 hasMedia))
    exact List.Pairwise.sublist
      ((List.take_sublist _ _).trans (List.drop_sublist _ _)) hs
  · unfold searchModel
    rw [List.drop_zero]
    exact (take_drop_pag offset _ limit).symm

/-- C4 (amended).  When the header line's own text contains `<Media omitted>`
(exact case) or `image omitted` (case-insensitively), the pending message
starts with media flag 1, and a continuation line never clears an already
set media flag, so the emitted message keeps flag 1 even with no archive
filename resolving.  Continuation text is not scanned for placeholders. -/
theorem c4_header_placeholder_sets_flag
    (tz : Int) (avail : List (List Char)) (line : List Char) (ts : Int)
    (s : Option (List Char)) (t : List Char) (cur : PMsg) (l : List Char)
    (_hH : parseHeaderLine tz line = some (ts, s, t))
    (hp : placeholderHit t = true)
    (hcur : cur.hasMedia = 1) :
    (startMessage avail ts s t).hasMedia = 1
    ∧ (contLine avail cur l).hasMedia = 1 :=
  ⟨startMessage_hasMedia_of_placeholder avail ts s t hp,
   contLine_hasMedia_of_one avail cur l hcur⟩

/-- C4 witness. -/
theorem c4_witness :
    parseHeaderLine 0 "[05/03/2023, 9:15] Alice: <Media omitted>".data
        = some (1678007700000, some "Alice".data, "<Media omitted>".data)
    ∧ placeholderHit "<Media omitted>".data = true
    ∧ (⟨0, none, "x".data, "message", 1, none⟩ : PMsg).hasMedia = 1
    ∧ ((startMessage [] 1678007700000 (some "Alice".data)
          "<Media omitted>".data).hasMedia = 1
       ∧ (contLine [] ⟨0, none, "x".data, "message", 1, none⟩ "y".data).hasMedia = 1) :=
  ⟨by decide, by decide, by decide,
   c4_header_placeholder_sets_flag 0 []
     "[05/03/2023, 9:15] Alice: <Media omitted>".data 1678007700000
     (some "Alice".data) "<Media omitted>".data
     ⟨0, none, "x".data, "message", 1, none⟩ "y".data
     (by decide) (by decide) (by decide)⟩

/-- C5 (amended).  A media-pattern match inside a message's text is compared
for exact, case-sensitive equality against the archive's media filenames:
an exactly equal base name sets the media flag and records the path, while
any other match leaves the path unset and the flag as the placeholder scan
left it; a recorded media path is never overwritten by later lines. -/
theorem c5_media_exact_match
    (tz : Int) (avail : List (List Char)) (line : List Char) (ts : Int)
    (s : Option (List Char)) (t f : List Char) (cur : PMsg) (l : List Char)
    (_hH : parseHeaderLine tz line = some (ts, s, t))
    (hs : mediaSearch t = some f)
    (hcur : optTruthy cur.mediaPath = true) :
    (f ∈ avail → (startMessage avail ts s t).hasMedia = 1
        ∧ (startMessage avail ts s t).mediaPath = some f)
    ∧ (f ∉ avail → (startMessage avail ts s t).hasMedia
          = (if placeholderHit t then 1 else 0)
        ∧ (startMessage avail ts s t).mediaPath = none)
    ∧ (contLine avail cur l).mediaPath = cur.mediaPath := by
  refine ⟨?_, ?_, contLine_mediaPath_of_truthy avail cur l hcur⟩
  · intro hf
    simp only [startMessage, hs]
    rw [if_pos hf]
    exact ⟨rfl, rfl⟩
  · intro hf
    simp only [startMessage, hs]
    rw [if_neg hf]
    exact ⟨rfl, rfl⟩

/-- C5 witness. -/
theorem c5_witness :
    parseHeaderLine 0 "[05/03/2023, 9:15] Alice: IMG-20230101-WA0001.jpg".data
        = some (1678007700000, some "Alice".data, "IMG-20230101-WA0001.jpg".data)
    ∧ mediaSearch "IMG-20230101-WA0001.jpg".data
        = some "IMG-20230101-WA0001.jpg".data
    ∧ optTruthy (⟨0, none, "x".data, "message", 1,
        some "IMG-20230101-WA0001.jpg".data⟩ : PMsg).mediaPath = true
    ∧ (("IMG-20230101-WA0001.jpg".data ∈ ["IMG-20230101-WA0001.jpg".data] →
          (startMessage ["IMG-20230101-WA0001.jpg".data] 1678007700000
              (some "Alice".data) "IMG-20230101-WA0001.jpg".data).hasMedia = 1
          ∧ (startMessage ["IMG-20230101-WA0001.jpg".data] 1678007700000
              (some "Alice".data) "IMG-20230101-WA0001.jpg".data).mediaPath
            = some "IMG-20230101-WA0001.jpg".data)
       ∧ ("IMG-20230101-WA0001.jpg".data ∉ ["IMG-20230101-WA0001.jpg".data] →
          (startMessage ["IMG-20230101-WA0001.jpg".data] 1678007700000
              (some "Alice".data) "IMG-20230101-WA0001.jpg".data).hasMedia
            = (if placeholderHit "IMG-20230101-WA0001.jpg".data then 1 else 0)
          ∧ (startMessage ["IMG-20230101-WA0001.jpg".data] 1678007700000
              (some "Alice".data) "IMG-20230101-WA0001.jpg".data).mediaPath = none)
       ∧ (contLine ["IMG-20230101-WA0001.jpg".data]
            ⟨0, none, "x".data, "message", 1, some "IMG-20230101-WA0001.jpg".data⟩
            "y".data).mediaPath
          = (⟨0, none, "x".data, "message", 1,
              some "IMG-20230101-WA0001.jpg".data⟩ : PMsg).mediaPath) :=
  ⟨by decide, by decide, by decide,
   c5_media_exact_match 0 ["IMG-20230101-WA0001.jpg".data]
     "[05/03/2023, 9:15] Alice: IMG-20230101-WA0001.jpg".data 1678007700000
     (some "Alice".data) "IMG-20230101-WA0001.jpg".data
     "IMG-20230101-WA0001.jpg".data
     ⟨0, none, "x".data, "message", 1, some "IMG-20230101-WA0001.jpg".data⟩
     "y".data (by decide) (by decide) (by decide)⟩

/-- C6 (confirmed).  A line that matches the header shape but whose date or
time fails validation is not a header: `_parse_header` returns `None`, the
reassembler treats the line as a continuation of the pending message, emits
nothing, and appends the line's raw text verbatim (after the empty-text
newline rule of the code). -/
theorem c6_invalid_header_is_continuation
    (tz : Int) (avail : List (List Char)) (line d t r : List Char) (cur : PMsg)
    (hnl : rstripNl line = line)
    (hm : matchHeader (pyStrip line) = some (d, t, r))
    (hd : parseWhatsappDate d t = none) :
    parseHeaderLine tz line = none
    ∧ stepLine tz avail (some cur) line = (some (contLine avail cur line), none)
    ∧ (contLine avail cur line).text
        = if cur.text.isEmpty then line else cur.text ++ '\n' :: line := by
  have hph : parseHeaderLine tz line = none := by
    unfold parseHeaderLine
    rw [hm]
    simp [hd]
  refine ⟨hph, ?_, contLine_text avail cur line⟩
  simp only [stepLine, hnl, hph]

/-- C6 witness: an in-range date with hour 25 demotes the line to a
continuation of a concrete pending message. -/
theorem c6_witness :
    rstripNl "[05/03/2023, 25:00] Alice: hi".data
        = "[05/03/2023, 25:00] Alice: hi".data
    ∧ matchHeader (pyStrip "[05/03/2023, 25:00] Alice: hi".data)
        = some ("05/03/2023".data, "25:00".data, "Alice: hi".data)
    ∧ parseWhatsappDate "05/03/2023".data "25:00".data = none
    ∧ (parseHeaderLine 0 "[05/03/2023, 25:00] Alice: hi".data = none
       ∧ stepLine 0 [] (some ⟨0, some "Bob".data, "yo".data, "message", 0, none⟩)
            "[05/03/2023, 25:00] Alice: hi".data
          = (some (contLine [] ⟨0, some "Bob".data, "yo".data, "message", 0, none⟩
              "[05/03/2023, 25:00] Alice: hi".data), none)
       ∧ (contLine [] ⟨0, some "Bob".data, "yo".data, "message", 0, none⟩
            "[05/03/2023, 25:00] Alice: hi".data).text
          = if (⟨0, some "Bob".data, "yo".data, "message", 0, none⟩ : PMsg).text.isEmpty
            then "[05/03/2023, 25:00] Alice: hi".data
            else (⟨0, some "Bob".data, "yo".data, "message", 0, none⟩ : PMsg).text
              ++ '\n' :: "[05/03/2023, 25:00] Alice: hi".data) :=
  ⟨by decide, by decide, by decide,
   c6_invalid_header_is_continuation 0 [] "[05/03/2023, 25:00] Alice: hi".data
     "05/03/2023".data "25:00".data "Alice: hi".data
     ⟨0, some "Bob".data, "yo".data, "message", 0, none⟩
     (by decide) (by decide) (by decide)⟩

/-- C7 (amended).  For an archive with zero entries ending in `.txt` the
whole import completes silently with nothing imported and the store kept
unchanged: no `ArchiveError`-typed failure exists in the code. -/
theorem c7_no_transcripts_imports_nothing
    (tz : Int) (entries : List ZEntry) (s : ChatStore)
    (h : ∀ e ∈ entries, txtEntry e = false) :
    importZipToRows tz entries = []
    ∧ importArchiveSkip s (importZipToRows tz entries) = s := by
  have hf : entries.filter txtEntry = [] := by
    rw [List.filter_eq_nil_iff]
    intro a ha
    simp [h a ha]
  constructor
  · unfold importZipToRows
    rw [hf]
    rfl
  · unfold importZipToRows
    rw [hf]
    rfl

/-- C7 witness. -/
theorem c7_witness :
    (∀ e ∈ [(⟨"IMG-20230101-WA0001.jpg".data, []⟩ : ZEntry)], txtEntry e = false)
    ∧ (importZipToRows 0 [⟨"IMG-20230101-WA0001.jpg".data, []⟩] = []
       ∧ importArchiveSkip [("c".data, [])]
            (importZipToRows 0 [⟨"IMG-20230101-WA0001.jpg".data, []⟩])
          = [("c".data, [])]) :=
  ⟨by decide,
   c7_no_transcripts_imports_nothing 0 [⟨"IMG-20230101-WA0001.jpg".data, []⟩]
     [("c".data, [])] (by decide)⟩

/-- C8 (confirmed).  Importing the same archive a second time under the
skip-duplicates policy leaves the store exactly as after the first import:
every chat and every chat's message list is unchanged. -/
theorem c8_skip_import_idempotent (s : ChatStore)
    (a : List (List Char × List PMsg)) :
    importArchiveSkip (importArchiveSkip s a) a = importArchiveSkip s a := by
  apply importArchiveSkip_id
  intro p hp
  have hpost := importArchiveSkip_post a s p hp
  refine ⟨hpost.1, ?_⟩
  by_cases hms : p.2 = []
  · exact Or.inl hms
  · exact Or.inr (hpost.2 hms)

/-- C9 (amended).  Given header H1 with non-empty text, continuations C1 and
C2, then header H2, the reassembler emits exactly the two messages with
texts `H1-text\nC1\nC2` and `H2-text`; a continuation arriving with no
pending message is discarded.  (When the pending text is empty a
continuation replaces it without the leading newline, as the
counterexample shows.) -/
theorem c9_reassembly
    (tz : Int) (avail : List (List Char)) (h1 c1 c2 h2 : List Char)
    (ts1 ts2 : Int) (s1 s2 : Option (List Char)) (t1 t2 : List Char)
    (hn1 : rstripNl h1 = h1) (hn2 : rstripNl c1 = c1)
    (hn3 : rstripNl c2 = c2) (hn4 : rstripNl h2 = h2)
    (hH1 : parseHeaderLine tz h1 = some (ts1, s1, t1)) (ht1 : t1 ≠ [])
    (hC1 : parseHeaderLine tz c1 = none) (hC2 : parseHeaderLine tz c2 = none)
    (hH2 : parseHeaderLine tz h2 = some (ts2, s2, t2)) :
    (runReassembler tz avail [h1, c1, c2, h2]).map (·.text)
        = [t1 ++ '\n' :: c1 ++ '\n' :: c2, t2]
    ∧ runReassembler tz avail [c1] = [] := by
  have e1 : (startMessage avail ts1 s1 t1).text = t1 := startMessage_text _ _ _ _
  have e2 : (contLine avail (startMessage avail ts1 s1 t1) c1).text
      = t1 ++ '\n' :: c1 := by
    rw [contLine_text, e1]
    cases t1 with
    | nil => exact absurd rfl ht1
    | cons a l => simp
  have e3 : (contLine avail (contLine avail (startMessage avail ts1 s1 t1) c1) c2).text
      = (t1 ++ '\n' :: c1) ++ '\n' :: c2 := by
    rw [contLine_text, e2]
    simp [append_cons_ne_empty]
  constructor
  · show (runAux tz avail [h1, c1, c2, h2] none).map (·.text) = _
    simp only [runAux, stepLine, hn1, hn2, hn3, hn4, hH1, hC1, hC2, hH2,
      Option.toList_some, Option.toList_none, List.nil_append, List.map]
    rw [e3, startMessage_text]
  · show runAux tz avail [c1] none = []
    simp only [runAux, stepLine, hn2, hC1, Option.toList_none]
    rfl

/-- C9 witness. -/
theorem c9_witness :
    rstripNl "[05/03/2023, 9:15 AM] Alice: hi".data
        = "[05/03/2023, 9:15 AM] Alice: hi".data
    ∧ rstripNl "a".data = "a".data
    ∧ rstripNl "b".data = "b".data
    ∧ rstripNl "[05/03/2023, 9:16 AM] Bob: yo".data
        = "[05/03/2023, 9:16 AM] Bob: yo".data
    ∧ parseHeaderLine 0 "[05/03/2023, 9:15 AM] Alice: hi".data
        = some (1678007700000, some "Alice".data, "hi".data)
    ∧ "hi".data ≠ []
    ∧ parseHeaderLine 0 "a".data = none
    ∧ parseHeaderLine 0 "b".data = none
    ∧ parseHeaderLine 0 "[05/03/2023, 9:16 AM] Bob: yo".data
        = some (1678007760000, some "Bob".data, "yo".data)
    ∧ ((runReassembler 0 [] ["[05/03/2023, 9:15 AM] Alice: hi".data, "a".data,
          "b".data, "[05/03/2023, 9:16 AM] Bob: yo".data]).map (·.text)
        = ["hi".data ++ '\n' :: "a".data ++ '\n' :: "b".data, "yo".data]
       ∧ runReassembler 0 [] ["a".data] = []) :=
  ⟨by decide, by decide, by decide, by decide, by decide, by decide, by decide,
   by decide, by decide,
   c9_reassembly 0 [] "[05/03/2023, 9:15 AM] Alice: hi".data "a".data "b".data
     "[05/03/2023, 9:16 AM] Bob: yo".data 1678007700000 1678007760000
     (some "Alice".data) (some "Bob".data) "hi".data "yo".data
     (by decide) (by decide) (by decide) (by decide) (by decide) (by decide)
     (by decide) (by decide) (by decide)⟩

/-- C10 (amended).  Every record emitted by the reassembler with kind
`system` has a falsy sender: either null, or — in the colon-space edge
case — the empty string (which is not null). -/
theorem c10_system_sender_falsy
    (tz : Int) (avail : List (List Char)) (lines : List (List Char)) (m : PMsg)
    (hm : m ∈ runReassembler tz avail lines)
    (hsys : m.msgType = "system") :
    m.sender = none ∨ m.sender = some [] :=
  runAux_system_sender tz avail lines none (fun _ hc => nomatch hc) m hm hsys

/-- C10 witness. -/
theorem c10_witness :
    (⟨1678007700000, none, "foo".data, "system", 0, none⟩ : PMsg)
        ∈ runReassembler 0 [] ["[05/03/2023, 9:15 AM] foo".data]
    ∧ (⟨1678007700000, none, "foo".data, "system", 0, none⟩ : PMsg).msgType
        = "system"
    ∧ ((⟨1678007700000, none, "foo".data, "system", 0, none⟩ : PMsg).sender = none
       ∨ (⟨1678007700000, none, "foo".data, "system", 0, none⟩ : PMsg).sender
          = some []) :=
  ⟨by decide, by decide,
   c10_system_sender_falsy 0 [] ["[05/03/2023, 9:15 AM] foo".data]
     ⟨1678007700000, none, "foo".data, "system", 0, none⟩
     (by decide) (by decide)⟩

end WhatsFind
